import Mathlib

/-!
Shallow embedding of `src/hide.rs` from the `clear_on_drop` crate.

The module offers two public operations, `hide_mem` and `hide_ptr`, both
delegating to a backend function `hide_mem_impl` chosen at build time by
cargo feature flags among three modules: `nightly` (inline assembly),
`cc` (an opaque, separately compiled C function) and `fallback` (a
release-ordered atomic store of the address into a process-wide static
cell `DUMMY`).

The embedding models machine memory as a total function from addresses
to byte values, together with the single scratch cell and a ghost trace
of the effects each call performs (atomic stores/loads on the scratch
cell, allocations, external side effects).  Each backend's
`hide_mem_impl` is translated from the Rust source:

* `nightly`, sized path (`asm!("" : "=*m" (ptr) : "*0" (ptr))`): an
  empty instruction sequence whose declared effect is to read the
  referent and write it back — modelled as writing back the bytes just
  read;
* `nightly`, unsized path (`asm!("" : : "r" (ptr) : "memory")`): an
  empty instruction sequence with no actual write — modelled as the
  identity on state;
* `cc`: calls the external C function `clear_on_drop_hide`, whose C
  body is not part of the Rust sources; it is modelled from the spec's
  linkage contract (returns a pointer numerically equal to its
  argument, body inert);
* `fallback`: `DUMMY.store(ptr as *mut u8 as usize, Ordering::Release)`
  on the static `DUMMY: AtomicUsize = ATOMIC_USIZE_INIT`.

Build-time backend selection (the `#[cfg]`-guarded `pub use` lines 25–32
of `hide.rs`) is modelled by `selectedBackends` over a `BuildConfig`
recording the `nightly` and `no_cc` cargo features.
-/

namespace ClearOnDrop

/-- `std::sync::atomic::Ordering`, the memory-ordering argument of
atomic operations. -/
inductive MemOrdering where
  | relaxed
  | release
  | acquire
  | acqrel
  | seqcst
deriving DecidableEq, Repr

/-- Ghost trace events: the observable effects a call may perform.
`store`/`load` are atomic accesses to the process-wide scratch cell;
`alloc` would record a heap allocation and `syscall` an I/O or other
external side effect.  The embedding of `hide.rs` emits only `store`
events (and only in the fallback backend); the other constructors exist
so that absence of allocation, I/O and loads is statable. -/
inductive Event where
  | store (value : Nat) (ord : MemOrdering)
  | load (ord : MemOrdering)
  | alloc (size : Nat)
  | syscall
deriving DecidableEq, Repr

/-- `true` exactly on `Event.store` events. -/
def Event.isStore : Event → Bool
  | Event.store _ _ => true
  | _ => false

/-- `true` exactly on `Event.load` events. -/
def Event.isLoad : Event → Bool
  | Event.load _ => true
  | _ => false

/-- `true` exactly on `Event.alloc` events. -/
def Event.isAlloc : Event → Bool
  | Event.alloc _ => true
  | _ => false

/-- Program state: machine memory (a byte value at every address), the
process-wide scratch cell `DUMMY` of the fallback backend, and the ghost
event trace. -/
@[ext]
structure State where
  mem : Nat → Nat
  dummy : Nat
  trace : List Event

/-- A Rust `&mut T` (possibly `T: ?Sized`): the address of the referent,
its size in bytes, and whether `T: Sized` holds (Rust specialization
dispatches the nightly backend on this). -/
structure Ref where
  addr : Nat
  size : Nat
  sized : Bool

/-- Read `n` consecutive bytes starting at `ptr`. -/
def readBytes (m : Nat → Nat) (ptr n : Nat) : List Nat :=
  (List.range n).map (fun i => m (ptr + i))

/-- Write the byte list `bs` into memory starting at `ptr`. -/
def writeBytes (m : Nat → Nat) (ptr : Nat) (bs : List Nat) : Nat → Nat :=
  fun a => if ptr ≤ a ∧ a < ptr + bs.length then bs.getD (a - ptr) 0 else m a

namespace nightly

/-- `nightly::hide_mem_impl` (hide.rs lines 36–62).  Specialization
picks the `T: Sized` impl when the size is statically known: its
`asm!("" : "=*m" (ptr) : "*0" (ptr))` declares the referent as read and
written by an empty instruction sequence, so the bytes read are written
back unchanged.  The `?Sized` default impl's
`asm!("" : : "r" (ptr) : "memory")` performs no write at all. -/
def hide_mem_impl (r : Ref) (s : State) : State :=
  if r.sized then
    ⟨writeBytes s.mem r.addr (readBytes s.mem r.addr r.size), s.dummy, s.trace⟩
  else
    s

end nightly

/-- Modelled from the spec: the separately compiled C function
`clear_on_drop_hide` declared `extern "C"` in hide.rs lines 70–72; its C
source is not under `src/`.  Per the spec's linkage contract (§6) it
accepts one opaque pointer, returns a value numerically equal to its
argument, and its body is inert: no effect on memory, the scratch cell
or the outside world. -/
def clear_on_drop_hide (ptr : Nat) (s : State) : Nat × State :=
  (ptr, s)

namespace cc

/-- `cc::hide_mem_impl` (hide.rs lines 74–79): passes the address to
`clear_on_drop_hide` and discards the returned pointer. -/
def hide_mem_impl (r : Ref) (s : State) : State :=
  (ClearOnDrop.clear_on_drop_hide r.addr s).2

end cc

/-- `ATOMIC_USIZE_INIT`: the value of the static `DUMMY` cell at process
start (`AtomicUsize` with initial value `0`). -/
def ATOMIC_USIZE_INIT : Nat := 0

namespace fallback

/-- `fallback::hide_mem_impl` (hide.rs lines 88–92):
`DUMMY.store(ptr as *mut u8 as usize, Ordering::Release)` — stores the
numeric address into the scratch cell with release ordering. -/
def hide_mem_impl (r : Ref) (s : State) : State :=
  ⟨s.mem, r.addr, s.trace ++ [Event.store r.addr MemOrdering.release]⟩

end fallback

/-- The three backend modules of hide.rs. -/
inductive Backend where
  | nightly
  | cc
  | fallback
deriving DecidableEq, Repr

/-- The backend function `hide_mem_impl` as re-exported into the parent
module, for the backend compiled into the build. -/
def hide_mem_impl (b : Backend) (r : Ref) (s : State) : State :=
  match b with
  | Backend.nightly => nightly.hide_mem_impl r s
  | Backend.cc => cc.hide_mem_impl r s
  | Backend.fallback => fallback.hide_mem_impl r s

/-- `hide_mem<T: ?Sized>(ptr: &mut T)` (hide.rs lines 13–15): delegates
to the selected backend's `hide_mem_impl`. -/
def hide_mem (b : Backend) (r : Ref) (s : State) : State :=
  hide_mem_impl b r s

/-- `hide_ptr<P>(mut ptr: P) -> P` (hide.rs lines 20–23).  The owned
value (its `bytes`, of a sized type `P`) lives in the local `ptr` at
stack slot `addr`; `hide_mem::<P>(&mut ptr)` is applied to that slot
(with `P: Sized`, so `size = bytes.length` and `sized = true`), and the
value then stored in the slot is returned. -/
def hide_ptr (b : Backend) (addr : Nat) (bytes : List Nat) (s : State) :
    List Nat × State :=
  let s0 : State := ⟨writeBytes s.mem addr bytes, s.dummy, s.trace⟩
  let s1 : State := hide_mem b ⟨addr, bytes.length, true⟩ s0
  (readBytes s1.mem addr bytes.length, s1)

/-- A cargo build configuration: which of the two features of the crate
are enabled. -/
structure BuildConfig where
  feature_nightly : Bool
  feature_no_cc : Bool
deriving DecidableEq, Repr

/-- hide.rs line 25: `#[cfg(feature = "nightly")] pub use self::nightly::*`. -/
def nightlySelected (c : BuildConfig) : Bool :=
  c.feature_nightly

/-- hide.rs line 28: `#[cfg(not(feature = "no_cc"))] pub use self::cc::*`. -/
def ccSelected (c : BuildConfig) : Bool :=
  !c.feature_no_cc

/-- hide.rs line 31: `#[cfg(all(feature = "no_cc", not(feature = "nightly")))]
pub use self::fallback::*`. -/
def fallbackSelected (c : BuildConfig) : Bool :=
  c.feature_no_cc && !c.feature_nightly

/-- The list of backend modules whose `hide_mem_impl` is compiled in and
re-exported under the given configuration (hide.rs lines 25–32). -/
def selectedBackends (c : BuildConfig) : List Backend :=
  (if nightlySelected c then [Backend.nightly] else []) ++
  (if ccSelected c then [Backend.cc] else []) ++
  (if fallbackSelected c then [Backend.fallback] else [])

/-- The scratch-cell value after a call, per backend. -/
def dummyAfter (b : Backend) (r : Ref) (s : State) : Nat :=
  match b with
  | Backend.fallback => r.addr
  | _ => s.dummy

/-- The trace events one `hide_mem_impl` call appends, per backend. -/
def newEvents (b : Backend) (r : Ref) : List Event :=
  match b with
  | Backend.fallback => [Event.store r.addr MemOrdering.release]
  | _ => []

/-! ### Helper lemmas -/

theorem length_readBytes (m : Nat → Nat) (ptr n : Nat) :
    (readBytes m ptr n).length = n := by
  simp [readBytes]

theorem getElem_readBytes (m : Nat → Nat) (ptr n i : Nat) (h : i < n) :
    (readBytes m ptr n).getD i 0 = m (ptr + i) := by
  simp [readBytes, List.getD_eq_getElem?_getD, List.getElem?_map,
    List.getElem?_range, h]

theorem writeBytes_readBytes_self (m : Nat → Nat) (ptr n : Nat) :
    writeBytes m ptr (readBytes m ptr n) = m := by
  funext a
  unfold writeBytes
  rw [length_readBytes]
  by_cases h : ptr ≤ a ∧ a < ptr + n
  · rw [if_pos h, getElem_readBytes m ptr n (a - ptr) (by omega)]
    congr 1
    omega
  · rw [if_neg h]

theorem readBytes_writeBytes_self (m : Nat → Nat) (ptr : Nat)
    (bs : List Nat) : readBytes (writeBytes m ptr bs) ptr bs.length = bs := by
  apply List.ext_getElem
  · simp [length_readBytes]
  · intro i h1 h2
    have hi : i < bs.length := h2
    simp only [readBytes, List.getElem_map, List.getElem_range]
    unfold writeBytes
    rw [if_pos (by omega)]
    have : ptr + i - ptr = i := by omega
    rw [this, List.getD_eq_getElem bs 0 hi]

theorem hide_mem_eq (b : Backend) (r : Ref) (s : State) :
    hide_mem b r s = ⟨s.mem, dummyAfter b r s, s.trace ++ newEvents b r⟩ := by
  cases b with
  | nightly =>
    simp only [hide_mem, hide_mem_impl, nightly.hide_mem_impl, dummyAfter,
      newEvents, List.append_nil]
    by_cases h : r.sized
    · rw [if_pos h, writeBytes_readBytes_self]
    · rw [if_neg h]
  | cc =>
    simp [hide_mem, hide_mem_impl, cc.hide_mem_impl, clear_on_drop_hide,
      dummyAfter, newEvents]
  | fallback =>
    simp [hide_mem, hide_mem_impl, fallback.hide_mem_impl, dummyAfter,
      newEvents]

theorem hide_mem_mem (b : Backend) (r : Ref) (s : State) :
    (hide_mem b r s).mem = s.mem := by
  rw [hide_mem_eq]

theorem hide_mem_trace (b : Backend) (r : Ref) (s : State) :
    (hide_mem b r s).trace = s.trace ++ newEvents b r := by
  rw [hide_mem_eq]

theorem hide_mem_dummy (b : Backend) (r : Ref) (s : State) :
    (hide_mem b r s).dummy = dummyAfter b r s := by
  rw [hide_mem_eq]

theorem hide_ptr_fst (b : Backend) (addr : Nat) (bytes : List Nat)
    (s : State) : (hide_ptr b addr bytes s).1 = bytes := by
  show readBytes
    (hide_mem b ⟨addr, bytes.length, true⟩
      ⟨writeBytes s.mem addr bytes, s.dummy, s.trace⟩).mem addr bytes.length = bytes
  rw [hide_mem_mem]
  exact readBytes_writeBytes_self s.mem addr bytes

theorem hide_ptr_snd_mem (b : Backend) (addr : Nat) (bytes : List Nat)
    (s : State) :
    (hide_ptr b addr bytes s).2.mem = writeBytes s.mem addr bytes := by
  show (hide_mem b ⟨addr, bytes.length, true⟩
    ⟨writeBytes s.mem addr bytes, s.dummy, s.trace⟩).mem = writeBytes s.mem addr bytes
  rw [hide_mem_mem]

theorem hide_ptr_snd_trace (b : Backend) (addr : Nat) (bytes : List Nat)
    (s : State) :
    (hide_ptr b addr bytes s).2.trace =
      s.trace ++ newEvents b ⟨addr, bytes.length, true⟩ := by
  show (hide_mem b ⟨addr, bytes.length, true⟩
      ⟨writeBytes s.mem addr bytes, s.dummy, s.trace⟩).trace =
    s.trace ++ newEvents b ⟨addr, bytes.length, true⟩
  rw [hide_mem_trace]

theorem newEvents_all_store (b : Backend) (r : Ref) :
    (newEvents b r).all Event.isStore = true := by
  cases b <;> simp [newEvents, Event.isStore]

theorem newEvents_no_load (b : Backend) (r : Ref) :
    (newEvents b r).all (fun e => !e.isLoad) = true := by
  cases b <;> simp [newEvents, Event.isLoad]

theorem newEvents_no_alloc (b : Backend) (r : Ref) :
    (newEvents b r).all (fun e => !e.isAlloc) = true := by
  cases b <;> simp [newEvents, Event.isAlloc]

/-! ### Claim theorems -/

/-- C1: for every value (any referent `r`, sized or dynamically sized),
every backend and every state, `hide_mem` leaves all of memory — in
particular the bytes of the referent — bit-for-bit identical to before
the call. -/
theorem C1_hide_mem_content_invariance (b : Backend) (r : Ref) (s : State) :
    (hide_mem b r s).mem = s.mem ∧
    readBytes (hide_mem b r s).mem r.addr r.size =
      readBytes s.mem r.addr r.size := by
  constructor
  · exact hide_mem_mem b r s
  · rw [hide_mem_mem]

/-- C2: for every input value (any byte content of the owned value) and
every backend, `hide_ptr` returns a value bit-for-bit equal to its input
(so pointer-like values keep their numeric address), and the call
performs no allocation. -/
theorem C2_hide_ptr_identity (b : Backend) (addr : Nat) (bytes : List Nat)
    (s : State) :
    (hide_ptr b addr bytes s).1 = bytes ∧
    (((hide_ptr b addr bytes s).2.trace.drop s.trace.length).all
      (fun e => !e.isAlloc)) = true := by
  refine ⟨hide_ptr_fst b addr bytes s, ?_⟩
  rw [hide_ptr_snd_trace, List.drop_left]
  exact newEvents_no_alloc b ⟨addr, bytes.length, true⟩

/-- C3: for a fixed input, the program-visible result — memory contents
after `hide_mem`, and the value returned by `hide_ptr` together with the
memory it leaves behind — is identical under any two backends. -/
theorem C3_cross_backend_equivalence (b1 b2 : Backend) (r : Ref)
    (addr : Nat) (bytes : List Nat) (s : State) :
    (hide_mem b1 r s).mem = (hide_mem b2 r s).mem ∧
    (hide_ptr b1 addr bytes s).1 = (hide_ptr b2 addr bytes s).1 ∧
    (hide_ptr b1 addr bytes s).2.mem = (hide_ptr b2 addr bytes s).2.mem := by
  refine ⟨?_, ?_, ?_⟩
  · rw [hide_mem_mem, hide_mem_mem]
  · rw [hide_ptr_fst, hide_ptr_fst]
  · rw [hide_ptr_snd_mem, hide_ptr_snd_mem]

/-- C4, counterexample: in the build configuration with the `nightly`
feature enabled and the `no_cc` feature disabled, the `#[cfg]` guards of
hide.rs lines 25–32 re-export the `hide_mem_impl` of BOTH the nightly
and the cc modules: two backends are selected, not exactly one, and the
claimed precedence (instruction-barrier over opaque-function) does not
exist in the code. -/
theorem C4_counterexample :
    selectedBackends ⟨true, false⟩ = [Backend.nightly, Backend.cc] ∧
    (selectedBackends ⟨true, false⟩).length = 2 := by
  constructor <;> rfl

/-- C4, amended: in every build configuration except `nightly` enabled
with `no_cc` disabled (where both the nightly and cc modules are
re-exported and the name `hide_mem_impl` is ambiguous), exactly one
backend is selected, namely: cc whenever `no_cc` is off, nightly when
both `nightly` and `no_cc` are on, and fallback when `no_cc` is on and
`nightly` is off. -/
theorem C4_backend_selection (c : BuildConfig)
    (h : c.feature_nightly = false ∨ c.feature_no_cc = true) :
    (selectedBackends c).length = 1 ∧
    selectedBackends c =
      (if c.feature_no_cc then
        (if c.feature_nightly then [Backend.nightly] else [Backend.fallback])
      else [Backend.cc]) := by
  obtain ⟨fn, fc⟩ := c
  cases fn <;> cases fc
  · exact ⟨rfl, rfl⟩
  · exact ⟨rfl, rfl⟩
  · exact absurd h (by decide)
  · exact ⟨rfl, rfl⟩

/-- Witness for C4: the configuration `no_cc` on, `nightly` off selects
exactly the fallback backend. -/
theorem C4_backend_selection_witness :
    ((BuildConfig.mk false true).feature_nightly = false ∨
      (BuildConfig.mk false true).feature_no_cc = true) ∧
    ((selectedBackends ⟨false, true⟩).length = 1 ∧
      selectedBackends ⟨false, true⟩ = [Backend.fallback]) :=
  ⟨Or.inl rfl, C4_backend_selection ⟨false, true⟩ (Or.inl rfl)⟩

/-- C5: every invocation of the fallback backend's `hide_mem_impl`
stores the numeric address of the target into the single process-wide
scratch cell (whose initial value `ATOMIC_USIZE_INIT` is zero) with a
release-ordered atomic store, recorded on the trace. -/
theorem C5_fallback_store (r : Ref) (s : State) :
    (fallback.hide_mem_impl r s).dummy = r.addr ∧
    (fallback.hide_mem_impl r s).trace =
      s.trace ++ [Event.store r.addr MemOrdering.release] ∧
    ATOMIC_USIZE_INIT = 0 :=
  ⟨rfl, rfl, rfl⟩

/-- C6: `hide_mem` and `hide_ptr` are total functions of their inputs
(infallible, defined on every input with no failure path), and the only
effects either call ever performs are atomic stores — in particular no
I/O (`syscall`), no allocation and no load. -/
theorem C6_infallible (b : Backend) (r : Ref) (addr : Nat)
    (bytes : List Nat) (s : State) :
    (((hide_mem b r s).trace.drop s.trace.length).all Event.isStore) = true ∧
    (((hide_ptr b addr bytes s).2.trace.drop s.trace.length).all
      Event.isStore) = true := by
  constructor
  · rw [hide_mem_trace, List.drop_left]
    exact newEvents_all_store b r
  · rw [hide_ptr_snd_trace, List.drop_left]
    exact newEvents_all_store b ⟨addr, bytes.length, true⟩

/-- C7: applying `hide_mem` to the same reference twice in sequence
produces the same observable memory state (memory contents and scratch
cell) as applying it once. -/
theorem C7_hide_mem_idempotent (b : Backend) (r : Ref) (s : State) :
    (hide_mem b r (hide_mem b r s)).mem = (hide_mem b r s).mem ∧
    (hide_mem b r (hide_mem b r s)).dummy = (hide_mem b r s).dummy := by
  constructor
  · rw [hide_mem_mem]
  · rw [hide_mem_dummy, hide_mem_dummy]
    cases b <;> simp [dummyAfter, hide_mem_dummy]

/-- C8: the scratch cell is never read: no call of `hide_mem` or
`hide_ptr` ever emits a load event, and their results (memory and
returned value) do not depend on the scratch cell's current value `d` —
only stores to the cell occur. -/
theorem C8_scratch_never_read (b : Backend) (r : Ref) (addr : Nat)
    (bytes : List Nat) (s : State) (d : Nat) :
    (((hide_mem b r s).trace.drop s.trace.length).all
      (fun e => !e.isLoad)) = true ∧
    (((hide_ptr b addr bytes s).2.trace.drop s.trace.length).all
      (fun e => !e.isLoad)) = true ∧
    (hide_mem b r ⟨s.mem, d, s.trace⟩).mem = (hide_mem b r s).mem ∧
    (hide_ptr b addr bytes ⟨s.mem, d, s.trace⟩).1 =
      (hide_ptr b addr bytes s).1 := by
  refine ⟨?_, ?_, ?_, ?_⟩
  · rw [hide_mem_trace, List.drop_left]
    exact newEvents_no_load b r
  · rw [hide_ptr_snd_trace, List.drop_left]
    exact newEvents_no_load b ⟨addr, bytes.length, true⟩
  · rw [hide_mem_mem, hide_mem_mem]
  · rw [hide_ptr_fst, hide_ptr_fst]

/-- C9: the barrier has no side effect on unrelated memory and performs
no allocation: `hide_mem` changes no address at all, and `hide_ptr`
changes no address outside the slot holding its own argument. -/
theorem C9_no_unrelated_side_effect (b : Backend) (r : Ref) (addr : Nat)
    (bytes : List Nat) (s : State) :
    (∀ a : Nat, (hide_mem b r s).mem a = s.mem a) ∧
    (∀ a : Nat, a < addr ∨ addr + bytes.length ≤ a →
      (hide_ptr b addr bytes s).2.mem a = s.mem a) ∧
    (((hide_ptr b addr bytes s).2.trace.drop s.trace.length).all
      (fun e => !e.isAlloc)) = true := by
  refine ⟨?_, ?_, ?_⟩
  · intro a
    rw [hide_mem_mem]
  · intro a ha
    rw [hide_ptr_snd_mem]
    unfold writeBytes
    rw [if_neg (by omega)]
  · rw [hide_ptr_snd_trace, List.drop_left]
    exact newEvents_no_alloc b ⟨addr, bytes.length, true⟩

/-- Witness for C9: an address strictly below a two-byte value stored at
address 10 is untouched by `hide_ptr` under the fallback backend. -/
theorem C9_no_unrelated_side_effect_witness :
    ((3 : Nat) < 10 ∨ 10 + ([1, 2] : List Nat).length ≤ 3) ∧
    (hide_ptr Backend.fallback 10 [1, 2] ⟨fun _ => 0, 0, []⟩).2.mem 3 = 0 :=
  ⟨Or.inl (by decide),
    (C9_no_unrelated_side_effect Backend.fallback ⟨0, 0, true⟩ 10 [1, 2]
      ⟨fun _ => 0, 0, []⟩).2.1 3 (Or.inl (by decide))⟩

/-- C10: `hide_ptr` is defined for every owned value of any sized type
(any byte content of any length, pointer-like or not); it applies
`hide_mem` to the value's own storage slot (with the sized dispatch)
and returns the same value unchanged. -/
theorem C10_hide_ptr_any_sized (b : Backend) (addr : Nat)
    (bytes : List Nat) (s : State) :
    (hide_ptr b addr bytes s).1 = bytes ∧
    (hide_ptr b addr bytes s).2 =
      hide_mem b ⟨addr, bytes.length, true⟩
        ⟨writeBytes s.mem addr bytes, s.dummy, s.trace⟩ :=
  ⟨hide_ptr_fst b addr bytes s, rfl⟩

end ClearOnDrop
